import Mathlib

/-!
Verification development for the Lucca NDF configuration analyser
(src/app.py). The Python program parses a JSON export with pydantic
models (`CleemyData` and friends), derives lookup tables and flattened
DataFrames, audits them, and renders reports.

Shallow embedding conventions:
- JSON values (the result of `json.load`) are the inductive `Json`;
  objects keep their key/value list, with dictionary reads resolving to
  the last occurrence of a key (as `json.load` does for duplicates).
- JSON numbers are rationals (`Rat`); integer-typed pydantic fields
  accept exactly the numbers with denominator 1.  Following pydantic v2
  lax mode, numeric fields also coerce numeric strings: strings parsing
  under the decimal grammar sign? digits? (dot digits?)? (e sign?
  digits)? are accepted, for int fields only with an integral value.
  The infinity/nan string forms and the whitespace- or
  underscore-decorated forms pydantic additionally tolerates lie
  outside the modelled number domain, as do non-finite floats
  generally (numbers are exact rationals).  Booleans are rejected for
  numeric fields, as pydantic v2 does.
- pydantic validation is `Except String`: `.error` stands for
  `ValidationError` (error messages are not compared, only success or
  failure and the produced model values).
- Python code that can raise (`str.join` on non-strings,
  `None.capitalize()`, pandas `KeyError` on a column of an empty
  DataFrame) is embedded in `Except String` as well.
- `pandas.DataFrame`s are lists of row structures; cells that can hold
  arbitrary Python values (display names coming from the untyped
  `multilingualName` dict) are typed `Json`.
-/

/-! # JSON values -/

mutual
inductive Json where
  | null
  | bool (b : Bool)
  | num (q : Rat)
  | str (s : String)
  | arr (xs : JArr)
  | obj (kvs : JObj)
deriving DecidableEq
inductive JArr where
  | nil
  | cons (hd : Json) (tl : JArr)
deriving DecidableEq
inductive JObj where
  | nil
  | cons (k : String) (v : Json) (tl : JObj)
deriving DecidableEq
end

def JArr.toList : JArr → List Json
  | .nil => []
  | .cons x xs => x :: xs.toList

def JObj.toList : JObj → List (String × Json)
  | .nil => []
  | .cons k v r => (k, v) :: r.toList

/-- Build a JSON array literal from a list. -/
def jA : List Json → JArr
  | [] => .nil
  | x :: xs => .cons x (jA xs)

/-- Build a JSON object literal from a key/value list. -/
def jO : List (String × Json) → JObj
  | [] => .nil
  | (k, v) :: r => .cons k v (jO r)

/-- Dictionary read on a decoded JSON object: `json.load` keeps the last
occurrence of a duplicated key, so the last binding wins. -/
def getKey : List (String × Json) → String → Option Json
  | [], _ => none
  | (k0, v0) :: rest, k =>
    match getKey rest k with
    | some v => some v
    | none => if k0 = k then some v0 else none

/-! # Python value semantics used by the program -/

/-- Python truthiness of a JSON-decoded value, as tested by if and by
filter with a None predicate. -/
def pyTruthy : Json → Bool
  | .null => false
  | .bool b => b
  | .num q => q != 0
  | .str s => s != ""
  | .arr xs => xs != JArr.nil
  | .obj kvs => kvs != JObj.nil

/-- Python `str()` of a JSON-decoded value, as used by f-string
interpolation.  Lists and dicts are abbreviated: every claim settled
here interpolates only scalar values (in all counterexamples and
witnesses, strings). -/
def pyStr : Json → String
  | .null => "None"
  | .bool true => "True"
  | .bool false => "False"
  | .num q => if q.den = 1 then toString q.num else toString q.num ++ "/" ++ toString q.den
  | .str s => s
  | .arr _ => "[...]"
  | .obj _ => "..."

deriving instance DecidableEq for Except

/-- Monadic map over `Except`, the effect of building a list where each
element construction may raise. -/
def exMapM (f : α → Except String β) : List α → Except String (List β)
  | [] => .ok []
  | x :: xs => do
    let y ← f x
    let ys ← exMapM f xs
    pure (y :: ys)

/-- Coerce a joined element the way `str.join` does: a non-string raises
`TypeError`. -/
def asStr : Json → Except String String
  | .str s => .ok s
  | _ => .error "TypeError: sequence item: expected str instance"

/-- Python `sep.join(xs)` over JSON-decoded values: raises on any
non-string element. -/
def pyJoin (sep : String) (xs : List Json) : Except String String := do
  let ss ← exMapM asStr xs
  pure (String.intercalate sep ss)

/-- Python `str.capitalize`: first character upper-cased, the rest
lower-cased (ASCII behaviour suffices for the strings in play). -/
def pyCapitalize (s : String) : String :=
  match s.data with
  | [] => ""
  | c :: cs => String.mk (c.toUpper :: cs.map Char.toLower)

/-! # The pydantic models of src/app.py (lines 46-111) -/

structure Threshold where
  amount : Option Rat
deriving DecidableEq

structure Limit where
  idNatures : List Int
  type : Option String
  period : Option String
  currencyCode : Option String
  thresholds : List Threshold
deriving DecidableEq

structure Allowance where
  idNatures : List Int
  currencyCode : Option String
  thresholds : List Threshold
deriving DecidableEq

structure Profile where
  id : Option Int
  multilingualName : List (String × Json)
  idNatures : List Int
  limits : List Limit
  allowances : List Allowance
deriving DecidableEq

structure Nature where
  id : Int
  multilingualName : List (String × Json)
deriving DecidableEq

structure CostsAccount where
  id : Int
  format : List (List (String × Json))
deriving DecidableEq

structure NatureAccountMapping where
  idNature : Int
  idCostsAccount : Option Int
  vatOptions : List (String × Json)
deriving DecidableEq

structure ChartOfAccounts where
  id : Int
  name : Option String
  costsAccounts : List CostsAccount
  natureAccountMappings : List NatureAccountMapping
deriving DecidableEq

structure CleemyData where
  profiles : List Profile
  natures : List Nature
  chartsOfAccounts : List ChartOfAccounts
deriving DecidableEq

/-! # pydantic validation, embedded

Each `X.model_validate` follows the declared model under pydantic v2
lax (default) validation: a field with a `default`/`default_factory`
takes the default when the key is absent; an `Optional[...]` field also
accepts an explicit `null`; numeric fields coerce numeric strings (see
`strToRat?`); any other present value must have the declared shape,
otherwise validation fails. -/

def chDot : Char := Char.ofNat 46

def chLowE : Char := Char.ofNat 101

def chUpE : Char := Char.ofNat 69

def chPlus : Char := Char.ofNat 43

def chMinus : Char := Char.ofNat 45

def digitVal (c : Char) : Nat := c.toNat - 48

/-- Value of a possibly empty digit run; none when a non-digit occurs. -/
def parseDigits0 (cs : List Char) : Option Nat :=
  if cs.all Char.isDigit then some (cs.foldl (fun a c => a * 10 + digitVal c) 0) else none

/-- Value of a non-empty digit run. -/
def parseDigits (cs : List Char) : Option Nat :=
  if cs.isEmpty then none else parseDigits0 cs

def splitAtFirst (sep : Char) : List Char → Option (List Char × List Char)
  | [] => none
  | c :: rest =>
    if c = sep then some ([], rest)
    else
      match splitAtFirst sep rest with
      | some (l, r) => some (c :: l, r)
      | none => none

/-- Digits with an optional leading sign, as an exponent allows. -/
def parseSignedDigits (cs : List Char) : Option Int :=
  match cs with
  | [] => none
  | c :: rest =>
    if c = chPlus then (parseDigits rest).map Int.ofNat
    else if c = chMinus then (parseDigits rest).map fun n => -(n : Int)
    else (parseDigits cs).map Int.ofNat

/-- Unsigned mantissa: digits, or digits dot digits with at least one
digit present on either side. -/
def parseMantissa (cs : List Char) : Option Rat :=
  match splitAtFirst chDot cs with
  | none => (parseDigits cs).map fun n => (n : Rat)
  | some (ipart, fpart) =>
    if ipart.isEmpty && fpart.isEmpty then none
    else
      match parseDigits0 ipart, parseDigits0 fpart with
      | some i, some f => some ((i : Rat) + (f : Rat) / ((10 : Rat) ^ fpart.length))
      | _, _ => none

/-- The numeric value of a decimal string: optional sign, mantissa,
optional exponent.  This is the number grammar shared by the pydantic
lax string coercions for int and float fields (their infinity/nan and
whitespace/underscore forms are outside the modelled number domain). -/
def strToRat? (s : String) : Option Rat :=
  let cs := s.data
  let signed : Bool × List Char :=
    match cs with
    | [] => (false, [])
    | c :: rest =>
      if c = chMinus then (true, rest)
      else if c = chPlus then (false, rest)
      else (false, cs)
  let neg := signed.1
  let cs2 := signed.2
  match splitAtFirst chLowE cs2 <|> splitAtFirst chUpE cs2 with
  | none => (parseMantissa cs2).map fun m => if neg then -m else m
  | some (mant, ex) =>
    match parseMantissa mant, parseSignedDigits ex with
    | some m, some e => some ((if neg then -m else m) * (10 : Rat) ^ e)
    | _, _ => none

/-- Pydantic lax str-to-int: the string must denote a number with no
fractional part (so "5", "+5", "5.0" and "1e2" coerce, "5.5" fails). -/
def strAsInt? (s : String) : Option Int :=
  match strToRat? s with
  | some q => if q.den = 1 then some q.num else none
  | none => none

/-- Pydantic v2 lax int: integral numbers (5 and 5.0, not 5.5), and
numeric strings with integral value; bools and anything else fail. -/
def vInt : Json → Except String Int
  | .num q => if q.den = 1 then .ok q.num else .error "int: fractional number"
  | .str s =>
    match strAsInt? s with
    | some i => .ok i
    | none => .error "int: string is not an integer"
  | _ => .error "int: wrong type"

def vStr : Json → Except String String
  | .str s => .ok s
  | _ => .error "str: wrong type"

/-- Pydantic v2 lax float: any number, and numeric strings; bools and
anything else fail. -/
def vFloat : Json → Except String Rat
  | .num q => .ok q
  | .str s =>
    match strToRat? s with
    | some q => .ok q
    | none => .error "float: string is not a number"
  | _ => .error "float: wrong type"

def vDict : Json → Except String (List (String × Json))
  | .obj kvs => .ok kvs.toList
  | _ => .error "dict: wrong type"

def vList (f : Json → Except String α) : Json → Except String (List α)
  | .arr xs => exMapM f xs.toList
  | _ => .error "list: wrong type"

/-- Validation of a pydantic `conlist(..., max_length=n)` field. -/
def vConList (f : Json → Except String α) (n : Nat) : Json → Except String (List α)
  | .arr xs => if xs.toList.length ≤ n then exMapM f xs.toList else .error "list: too long"
  | _ => .error "list: wrong type"

/-- Field with a default: absent key takes the default, a present value
(null included) is validated. -/
def keyD (d : List (String × Json)) (k : String) (f : Json → Except String α) (dflt : α) :
    Except String α :=
  match getKey d k with
  | none => .ok dflt
  | some v => f v

/-- Optional field defaulting to None: absent or null gives none. -/
def optKey (d : List (String × Json)) (k : String) (f : Json → Except String α) :
    Except String (Option α) :=
  match getKey d k with
  | none => .ok none
  | some .null => .ok none
  | some v => (f v).map some

/-- Required field: absent key is a validation error. -/
def reqKey (d : List (String × Json)) (k : String) (f : Json → Except String α) :
    Except String α :=
  match getKey d k with
  | none => .error ("missing field " ++ k)
  | some v => f v

def Threshold.model_validate : Json → Except String Threshold
  | .obj kvs => (optKey kvs.toList "amount" vFloat).map Threshold.mk
  | _ => .error "Threshold: not an object"

def Limit.model_validate : Json → Except String Limit
  | .obj kvs => do
    let ids ← keyD kvs.toList "idNatures" (vList vInt) []
    let ty ← optKey kvs.toList "type" vStr
    let pe ← optKey kvs.toList "period" vStr
    let cc ← optKey kvs.toList "currencyCode" vStr
    let th ← keyD kvs.toList "thresholds" (vConList Threshold.model_validate 1) []
    pure (Limit.mk ids ty pe cc th)
  | _ => .error "Limit: not an object"

def Allowance.model_validate : Json → Except String Allowance
  | .obj kvs => do
    let ids ← keyD kvs.toList "idNatures" (vList vInt) []
    let cc ← optKey kvs.toList "currencyCode" vStr
    let th ← keyD kvs.toList "thresholds" (vConList Threshold.model_validate 1) []
    pure (Allowance.mk ids cc th)
  | _ => .error "Allowance: not an object"

def Profile.model_validate : Json → Except String Profile
  | .obj kvs => do
    let i ← optKey kvs.toList "id" vInt
    let mn ← keyD kvs.toList "multilingualName" vDict []
    let ids ← keyD kvs.toList "idNatures" (vList vInt) []
    let ls ← keyD kvs.toList "limits" (vList Limit.model_validate) []
    let aws ← keyD kvs.toList "allowances" (vList Allowance.model_validate) []
    pure (Profile.mk i mn ids ls aws)
  | _ => .error "Profile: not an object"

def Nature.model_validate : Json → Except String Nature
  | .obj kvs => do
    let i ← reqKey kvs.toList "id" vInt
    let mn ← keyD kvs.toList "multilingualName" vDict []
    pure (Nature.mk i mn)
  | _ => .error "Nature: not an object"

def CostsAccount.model_validate : Json → Except String CostsAccount
  | .obj kvs => do
    let i ← reqKey kvs.toList "id" vInt
    let fo ← keyD kvs.toList "format" (vConList vDict 1) []
    pure (CostsAccount.mk i fo)
  | _ => .error "CostsAccount: not an object"

def NatureAccountMapping.model_validate : Json → Except String NatureAccountMapping
  | .obj kvs => do
    let i ← reqKey kvs.toList "idNature" vInt
    let ca ← optKey kvs.toList "idCostsAccount" vInt
    let vo ← keyD kvs.toList "vatOptions" vDict []
    pure (NatureAccountMapping.mk i ca vo)
  | _ => .error "NatureAccountMapping: not an object"

def ChartOfAccounts.model_validate : Json → Except String ChartOfAccounts
  | .obj kvs => do
    let i ← reqKey kvs.toList "id" vInt
    let nm ← optKey kvs.toList "name" vStr
    let cas ← keyD kvs.toList "costsAccounts" (vList CostsAccount.model_validate) []
    let nams ← keyD kvs.toList "natureAccountMappings" (vList NatureAccountMapping.model_validate) []
    pure (ChartOfAccounts.mk i nm cas nams)
  | _ => .error "ChartOfAccounts: not an object"

def CleemyData.model_validate : Json → Except String CleemyData
  | .obj kvs => do
    let ps ← keyD kvs.toList "profiles" (vList Profile.model_validate) []
    let ns ← keyD kvs.toList "natures" (vList Nature.model_validate) []
    let cs ← keyD kvs.toList "chartsOfAccounts" (vList ChartOfAccounts.model_validate) []
    pure (CleemyData.mk ps ns cs)
  | _ => .error "CleemyData: input is not an object"

/-! # Display names (src/app.py lines 68-83)

`name_fr` reads the untyped `multilingualName` dict, so its result can
be any JSON value; downstream the program uses it as a DataFrame cell,
a dict key and in f-strings, which accept anything. -/

/-- Profile.name_fr: the fr-FR entry if truthy, else a literal built
from the id, else the anonymous-profile literal. -/
def Profile.name_fr (p : Profile) : Json :=
  let name := (getKey p.multilingualName "fr-FR").getD Json.null
  if pyTruthy name then name
  else
    match p.id with
    | some i => Json.str ("Profil sans nom (ID: " ++ toString i ++ ")")
    | none => Json.str "Profil non identifié"

/-- Nature.name_fr: the multilingualName dict get of fr-FR with the
f-string fallback ID id.  A present key returns its value as-is, even
null or the empty string; the fallback literal is used only when the
key is absent. -/
def Nature.name_fr (n : Nature) : Json :=
  match getKey n.multilingualName "fr-FR" with
  | some v => v
  | none => Json.str ("ID " ++ toString n.id)

/-! # Nature lookup (src/app.py line 124) -/

/-- Python dict assignment on an association list with unique keys:
overwrite the value if the key is present, append otherwise. -/
def dictInsert : List (Int × Json) → Int → Json → List (Int × Json)
  | [], k, v => [(k, v)]
  | p :: rest, k, v => if p.1 = k then (p.1, v) :: rest else p :: dictInsert rest k v

/-- The dict comprehension building the id-to-display-name lookup:
a duplicated nature id keeps the name of the last entry. -/
def natureLookup (ns : List Nature) : List (Int × Json) :=
  ns.foldl (fun d n => dictInsert d n.id n.name_fr) []

def lookupGet : List (Int × Json) → Int → Option Json
  | [], _ => none
  | p :: rest, k => if p.1 = k then some p.2 else lookupGet rest k

/-- Python `dict.get(k, default)`. -/
def lookupGetD (d : List (Int × Json)) (k : Int) (dflt : Json) : Json :=
  (lookupGet d k).getD dflt

/-! # Flattener: profile-nature table (src/app.py lines 146-156) -/

structure ProfileRow where
  profil : Json
  idNature : Int
  nomNature : Json
deriving DecidableEq

def _create_profile_nature_df (data : CleemyData) (nature_lookup : List (Int × Json)) :
    List ProfileRow :=
  (data.profiles.map fun p =>
    p.idNatures.map fun nid =>
      ProfileRow.mk p.name_fr nid (lookupGetD nature_lookup nid (Json.str "❓ Inconnu"))).flatten

/-! # Flattener: rules table (src/app.py lines 158-184) -/

structure LimitRow where
  profil : Json
  typeRegle : String
  naturesConcernees : String
  typePlafond : String
  montant : Option Rat
  devise : Option String
  periode : Option String
deriving DecidableEq

def PERIOD_TRANSLATION : List (String × String) :=
  [("Day", "par Jour"), ("None", "par Dépense"), ("Month", "par Mois"), ("Year", "par An")]

def translationGet : List (String × String) → String → Option String
  | [], _ => none
  | p :: rest, k => if p.1 = k then some p.2 else translationGet rest k

/-- Python dict get on the period table, with the period itself as the
default: a None period stays None, an untranslated string passes
through. -/
def periodTranslate : Option String → Option String
  | none => none
  | some s => some ((translationGet PERIOD_TRANSLATION s).getD s)

/-- The head threshold if the list is non-empty, else an empty
Threshold. -/
def ruleThreshold (ths : List Threshold) : Threshold :=
  ths.headD (Threshold.mk none)

/-- The per-rule display names: the looked-up name per nature id, with
the f-string fallback ID nid for ids absent from the lookup. -/
def ruleNatureNames (nature_lookup : List (Int × Json)) (ids : List Int) : List Json :=
  ids.map fun nid => lookupGetD nature_lookup nid (Json.str ("ID " ++ toString nid))

/-- The cell getattr(limit, type, N/A).capitalize(): the pydantic model
always has the attribute, so the getattr default N/A is dead code; the
attribute is None when the JSON field was absent or null, and calling
capitalize on None raises AttributeError. -/
def capitalizedLimitType : Option String → Except String String
  | none => .error "AttributeError: NoneType object has no attribute capitalize"
  | some s => .ok (pyCapitalize s)

/-- One row of the rules table for a Limit.  The dict literal in the
source evaluates the joined nature names before the capitalized type,
so a join failure is reported first, as here. -/
def limitRow (nature_lookup : List (Int × Json)) (p : Profile) (l : Limit) :
    Except String LimitRow := do
  let joined ← pyJoin ", " ((ruleNatureNames nature_lookup l.idNatures).filter pyTruthy)
  let cap ← capitalizedLimitType l.type
  pure (LimitRow.mk p.name_fr "Limite" joined cap (ruleThreshold l.thresholds).amount
    l.currencyCode (periodTranslate l.period))

/-- One row of the rules table for an Allowance. -/
def allowanceRow (nature_lookup : List (Int × Json)) (p : Profile) (a : Allowance) :
    Except String LimitRow := do
  let joined ← pyJoin ", " ((ruleNatureNames nature_lookup a.idNatures).filter pyTruthy)
  pure (LimitRow.mk p.name_fr "Indemnité" joined "Forfait" (ruleThreshold a.thresholds).amount
    a.currencyCode (some "N/A"))

def _create_limits_df (data : CleemyData) (nature_lookup : List (Int × Json)) :
    Except String (List LimitRow) := do
  let per ← exMapM (fun p => do
      let lrows ← exMapM (limitRow nature_lookup p) p.limits
      let arows ← exMapM (allowanceRow nature_lookup p) p.allowances
      pure (lrows ++ arows)) data.profiles
  pure per.flatten

/-! # Flattener: nature-to-profiles reverse index (src/app.py lines 186-200)

The inner dictionary is keyed by `profile.name_fr`, a Python value used
as a dict key; here an association list keyed by `Json` with structural
equality.  (Python would additionally raise `TypeError` if a display
name were an unhashable list/dict; the theorems below restrict names to
strings.) -/

structure PRules where
  limits : List Limit
  allowances : List Allowance
deriving DecidableEq

abbrev PEntry := List (Json × PRules)
abbrev NMap := List (Int × PEntry)

/-- Inner `setdefault(name, empty)` followed by an in-place update. -/
def updEntry : PEntry → Json → (PRules → PRules) → PEntry
  | [], name, f => [(name, f (PRules.mk [] []))]
  | e :: rest, name, f =>
    if e.1 = name then (e.1, f e.2) :: rest else e :: updEntry rest name f

/-- Outer `setdefault(nature_id, dict())` followed by the inner update. -/
def updMap : NMap → Int → Json → (PRules → PRules) → NMap
  | [], nid, name, f => [(nid, updEntry [] name f)]
  | e :: rest, nid, name, f =>
    if e.1 = nid then (e.1, updEntry e.2 name f) :: rest else e :: updMap rest nid name f

def entryGet : PEntry → Json → Option PRules
  | [], _ => none
  | e :: rest, name => if e.1 = name then some e.2 else entryGet rest name

def mapGet : NMap → Int → Option PEntry
  | [], _ => none
  | e :: rest, nid => if e.1 = nid then some e.2 else mapGet rest nid

/-- Read `nature_map[nid][name]` when both keys exist. -/
def lookup2 (m : NMap) (nid : Int) (name : Json) : Option PRules :=
  (mapGet m nid).bind fun es => entryGet es name

/-- The three loops of `_create_nature_to_profiles_map` ran for one
profile: granted natures create empty entries, then each limit and each
allowance is appended under every nature id it references. -/
def addProfile (m : NMap) (p : Profile) : NMap :=
  let m1 := p.idNatures.foldl (fun acc nid => updMap acc nid p.name_fr id) m
  let m2 := p.limits.foldl (fun acc l =>
    l.idNatures.foldl (fun acc2 nid =>
      updMap acc2 nid p.name_fr (fun r => PRules.mk (r.limits ++ [l]) r.allowances)) acc) m1
  p.allowances.foldl (fun acc a =>
    a.idNatures.foldl (fun acc2 nid =>
      updMap acc2 nid p.name_fr (fun r => PRules.mk r.limits (r.allowances ++ [a]))) acc) m2

def _create_nature_to_profiles_map (data : CleemyData) : NMap :=
  data.profiles.foldl addProfile []

/-! # Auditor: orphan nature ids (src/app.py lines 202-207) -/

/-- The set difference between the unique values of the ID Nature
column and the lookup keys.  A DataFrame built from an empty record
list has no columns at all, so the column access raises KeyError on the
empty table. -/
def find_orphan_nature_ids (df_profiles : List ProfileRow) (nature_lookup : List (Int × Json)) :
    Except String (Finset Int) :=
  match df_profiles with
  | [] => .error "KeyError: ID Nature"
  | _ =>
    .ok ((df_profiles.map ProfileRow.idNature).toFinset \ (nature_lookup.map Prod.fst).toFinset)

/-! # Auditor: degenerate rules (src/app.py lines 209-227) -/

/-- Whether the resolved amount is None or equals zero. -/
def degenerateAmount : Option Rat → Bool
  | none => true
  | some q => q == 0

/-- Apostrophe character, kept out of string literals. -/
def apos : String := Char.toString (Char.ofNat 39)

def limitWarningMsg (nature_lookup : List (Int × Json)) (p : Profile) (l : Limit) :
    Except String String := do
  let joined ← pyJoin ", " (ruleNatureNames nature_lookup l.idNatures)
  pure ("**Profil " ++ apos ++ pyStr p.name_fr ++ apos ++
    "** : Limite avec montant nul ou non défini pour : *" ++ joined ++ "*.")

def allowanceWarningMsg (nature_lookup : List (Int × Json)) (p : Profile) (a : Allowance) :
    Except String String := do
  let joined ← pyJoin ", " (ruleNatureNames nature_lookup a.idNatures)
  pure ("**Profil " ++ apos ++ pyStr p.name_fr ++ apos ++
    "** : Indemnité avec montant nul ou non défini pour : *" ++ joined ++ "*.")

def auditLimits (nature_lookup : List (Int × Json)) (p : Profile) :
    List Limit → Except String (List String)
  | [] => .ok []
  | l :: rest =>
    if degenerateAmount (ruleThreshold l.thresholds).amount then do
      let w ← limitWarningMsg nature_lookup p l
      let ws ← auditLimits nature_lookup p rest
      pure (w :: ws)
    else auditLimits nature_lookup p rest

def auditAllowances (nature_lookup : List (Int × Json)) (p : Profile) :
    List Allowance → Except String (List String)
  | [] => .ok []
  | a :: rest =>
    if degenerateAmount (ruleThreshold a.thresholds).amount then do
      let w ← allowanceWarningMsg nature_lookup p a
      let ws ← auditAllowances nature_lookup p rest
      pure (w :: ws)
    else auditAllowances nature_lookup p rest

def audit_inconsistent_rules (data : CleemyData) (nature_lookup : List (Int × Json)) :
    Except String (List String) := do
  let per ← exMapM (fun p => do
      let lw ← auditLimits nature_lookup p p.limits
      let aw ← auditAllowances nature_lookup p p.allowances
      pure (lw ++ aw)) data.profiles
  pure per.flatten

/-! # PDF table layout (src/app.py lines 277-302) -/

structure Df where
  headers : List String
  rows : List (List String)
deriving DecidableEq

/-- The column widths drawn by `PDF.chapter_body`:
`col_width = effective_page_width / num_columns`, the same width for
every column, independent of the content. -/
def chapter_body_widths (w l_margin : Rat) (df : Df) : List Rat :=
  df.headers.map fun _ => (w - 2 * l_margin) / (df.headers.length : Rat)

/-- Landscape switch: L when there are more than 6 columns, else P. -/
def chapter_body_orientation (df : Df) : String :=
  if 6 < df.headers.length then "L" else "P"

/-! # The processing pipeline (src/app.py lines 115-144) -/

structure Processed where
  pydantic_data : CleemyData
  nature_lookup : List (Int × Json)
  df_profiles : List ProfileRow
  df_limits : List LimitRow
  nature_to_profiles_map : NMap
deriving DecidableEq

/-- load_and_process_data on an already JSON-decoded value: pydantic
validation followed by the three derivations; any raised error
(ValidationError or a generic exception inside the derivations) is
caught and surfaced as the error dict. -/
def load_and_process_data (j : Json) : Except String Processed := do
  let data ← CleemyData.model_validate j
  let lookup := natureLookup data.natures
  let dfp := _create_profile_nature_df data lookup
  let dfl ← _create_limits_df data lookup
  pure (Processed.mk data lookup dfp dfl (_create_nature_to_profiles_map data))

/-- The st.cache_data wrapper whose hash_funcs entry maps the BytesIO
argument to a constant None: the only argument is hashed to a constant,
so every call shares one cache slot and any cached result is returned
whatever the input is. -/
def load_and_process_data_cached (cache : Option (Except String Processed)) (j : Json) :
    Except String Processed × Option (Except String Processed) :=
  match cache with
  | some r => (r, some r)
  | none =>
    let r := load_and_process_data j
    (r, some r)

/-! # Claim-side definitions

These definitions follow the wording of the specification claims (not
the source); the theorems below compare them with the embedded code. -/

/-- Hypothesis shared by several theorems: every display name stored in
the nature lookup is a string (it fails for a nature whose fr-FR entry
is null or another non-string value). -/
def strLookup (nature_lookup : List (Int × Json)) : Prop :=
  ∀ kv ∈ nature_lookup, ∃ s, kv.2 = Json.str s

/-- C3, claim side: the comma-joined names of the rule ids whose name is
known, ids absent from the lookup filtered out. -/
def claimC3Joined (nature_lookup : List (Int × Json)) (ids : List Int) : String :=
  String.intercalate ", " ((ids.filterMap (lookupGet nature_lookup)).map pyStr)

/-- C3, amended side: the looked-up name with the "ID n" fallback for
unknown ids, empty names filtered out, comma-joined. -/
def amendedConcerned (nature_lookup : List (Int × Json)) (ids : List Int) : String :=
  String.intercalate ", "
    (((ruleNatureNames nature_lookup ids).map pyStr).filter fun s => s ≠ "")

/-- C6, spec side: the warning text of a degenerate Limit, as a total
function (names rendered through pyStr). -/
def limitWarningStr (nature_lookup : List (Int × Json)) (p : Profile) (l : Limit) : String :=
  "**Profil " ++ apos ++ pyStr p.name_fr ++ apos ++
    "** : Limite avec montant nul ou non défini pour : *" ++
    String.intercalate ", " ((ruleNatureNames nature_lookup l.idNatures).map pyStr) ++ "*."

/-- C6, spec side: the warning text of a degenerate Allowance. -/
def allowanceWarningStr (nature_lookup : List (Int × Json)) (p : Profile) (a : Allowance) :
    String :=
  "**Profil " ++ apos ++ pyStr p.name_fr ++ apos ++
    "** : Indemnité avec montant nul ou non défini pour : *" ++
    String.intercalate ", " ((ruleNatureNames nature_lookup a.idNatures).map pyStr) ++ "*."

/-- C6, spec side: exactly one warning per Limit/Allowance whose
resolved amount is null or zero, in document order, limits before
allowances within a profile. -/
def specDegenerateWarnings (data : CleemyData) (nature_lookup : List (Int × Json)) :
    List String :=
  (data.profiles.map fun p =>
    ((p.limits.filter fun l => degenerateAmount (ruleThreshold l.thresholds).amount).map
        (limitWarningStr nature_lookup p)) ++
    ((p.allowances.filter fun a => degenerateAmount (ruleThreshold a.thresholds).amount).map
        (allowanceWarningStr nature_lookup p))).flatten

/-- C8, claim side: the length that drives a column share,
max(header length, max data-cell string length). -/
def dfColLen (df : Df) (i : Nat) : Nat :=
  max (df.headers.getD i "").length ((df.rows.map fun r => (r.getD i "").length).foldr max 0)

/-- C8, claim side: column widths as shares of the usable page width
proportional to each column content length. -/
def claimC8Widths (w l_margin : Rat) (df : Df) : List Rat :=
  ((List.range df.headers.length).map (dfColLen df)).map fun L =>
    (w - 2 * l_margin) * (L : Rat) /
      ((((List.range df.headers.length).map (dfColLen df)).foldr (· + ·) 0 : Nat) : Rat)

/-- C10, claim side: the display name of the last entry in document
order carrying the given id. -/
def lastNatureNamed : List Nature → Int → Option Json
  | [], _ => none
  | n :: rest, i =>
    match lastNatureNamed rest i with
    | some v => some v
    | none => if n.id = i then some n.name_fr else none

/-! # Concrete inputs for counterexamples and witnesses -/

/-- C2: the empty but well-formed document. -/
def c2json : Json :=
  Json.obj (jO [("profiles", Json.arr (jA [])), ("natures", Json.arr (jA []))])

/-- C2 witness: a one-row profile-nature table granting the unknown
nature 42. -/
def c2df : List ProfileRow :=
  [ProfileRow.mk (Json.str "Cadre") 42 (Json.str "❓ Inconnu")]

def c3limit : Limit := Limit.mk [42] (some "absolute") none none []

def c3profile : Profile :=
  Profile.mk (some 10) [("fr-FR", Json.str "Cadre")] [] [c3limit] []

def c3data : CleemyData := CleemyData.mk [c3profile] [] []

/-- C4: a profile holding one limit whose `type` field is absent. -/
def c4json : Json :=
  Json.obj (jO
    [("profiles", Json.arr (jA
      [Json.obj (jO [("limits", Json.arr (jA [Json.obj (jO [])]))])])),
     ("natures", Json.arr (jA []))])

def c5nature : Nature := Nature.mk 1 [("fr-FR", Json.str "")]

/-- C5: a nature whose localized name is present and empty. -/
def c5json : Json :=
  Json.obj (jO
    [("profiles", Json.arr (jA [])),
     ("natures", Json.arr (jA
       [Json.obj (jO
         [("id", Json.num 1),
          ("multilingualName", Json.obj (jO [("fr-FR", Json.str "")]))])]))])

def c6limit : Limit := Limit.mk [1] none none none []

def c6profile : Profile := Profile.mk none [] [] [c6limit] []

def c6nature : Nature := Nature.mk 1 [("fr-FR", Json.null)]

def c6data : CleemyData := CleemyData.mk [c6profile] [c6nature] []

/-- C6: a degenerate limit (no thresholds) concerning a nature whose
fr-FR name is an explicit null. -/
def c6json : Json :=
  Json.obj (jO
    [("profiles", Json.arr (jA
      [Json.obj (jO
        [("limits", Json.arr (jA
          [Json.obj (jO [("idNatures", Json.arr (jA [Json.num 1]))])]))])])),
     ("natures", Json.arr (jA
       [Json.obj (jO
         [("id", Json.num 1),
          ("multilingualName", Json.obj (jO [("fr-FR", Json.null)]))])]))])

/-- C6 witness data: one named nature, three limits with amounts
absent, zero and 15. -/
def c6wNature : Nature := Nature.mk 1 [("fr-FR", Json.str "Repas")]

def c6wLimitEmpty : Limit := Limit.mk [1] (some "absolute") none none []

def c6wLimitZero : Limit := Limit.mk [1] (some "absolute") none none [Threshold.mk (some 0)]

def c6wLimitPos : Limit := Limit.mk [1] (some "absolute") none none [Threshold.mk (some 15)]

def c6wProfile : Profile :=
  Profile.mk (some 10) [("fr-FR", Json.str "Cadre")] [1]
    [c6wLimitEmpty, c6wLimitZero, c6wLimitPos] []

def c6wData : CleemyData := CleemyData.mk [c6wProfile] [c6wNature] []

/-- C7: two profiles sharing the anonymous display name; the first
grants nature 1 with no rule, the second has a limit on nature 1. -/
def c7limit : Limit := Limit.mk [1] none none none []

def c7p0 : Profile := Profile.mk none [] [1] [] []

def c7p1 : Profile := Profile.mk none [] [] [c7limit] []

def c7data : CleemyData := CleemyData.mk [c7p0, c7p1] [] []

/-- C7 witness data: distinct names; profile A grants 5 without rules,
profile B has a limit and an allowance on 5. -/
def c7wLimit : Limit := Limit.mk [5] (some "absolute") none none []

def c7wAllowance : Allowance := Allowance.mk [5] none []

def c7wpA : Profile := Profile.mk (some 1) [("fr-FR", Json.str "A")] [5] [] []

def c7wpB : Profile := Profile.mk (some 2) [("fr-FR", Json.str "B")] [] [c7wLimit] [c7wAllowance]

def c7wData : CleemyData := CleemyData.mk [c7wpA, c7wpB] [] []

/-- C8: two columns whose content lengths are 1 and 10. -/
def c8df : Df := Df.mk ["A", "0123456789"] [["x", "0123456789"]]

/-- C9: the empty document. -/
def c9inA : Json :=
  Json.obj (jO [("profiles", Json.arr (jA [])), ("natures", Json.arr (jA []))])

/-- C9: a different document (one nature), used to warm the cache. -/
def c9inB : Json :=
  Json.obj (jO
    [("profiles", Json.arr (jA [])),
     ("natures", Json.arr (jA [Json.obj (jO [("id", Json.num 7)])]))])

def c10n1 : Nature := Nature.mk 1 [("fr-FR", Json.str "Repas")]

def c10n2 : Nature := Nature.mk 1 [("fr-FR", Json.str "Restaurant")]

def c10data : CleemyData := CleemyData.mk [] [c10n1, c10n2] []

/-- C10: two natures carrying the same id 1 with different names. -/
def c10json : Json :=
  Json.obj (jO
    [("profiles", Json.arr (jA [])),
     ("natures", Json.arr (jA
       [Json.obj (jO
         [("id", Json.num 1),
          ("multilingualName", Json.obj (jO [("fr-FR", Json.str "Repas")]))]),
        Json.obj (jO
         [("id", Json.num 1),
          ("multilingualName", Json.obj (jO [("fr-FR", Json.str "Restaurant")]))])]))])

/-! # Generic lemmas about the Except-based embedding -/

@[simp]
theorem isOk_ok (a : α) : (Except.ok a : Except String α).isOk = true := rfl

@[simp]
theorem isOk_error (e : String) : (Except.error e : Except String α).isOk = false := rfl

theorem isOk_map (e : Except String α) (g : α → β) : (e.map g).isOk = e.isOk := by
  cases e <;> rfl

theorem exMapM_eq_ok (f : α → Except String β) (g : α → β) (xs : List α)
    (h : ∀ x ∈ xs, f x = .ok (g x)) : exMapM f xs = .ok (xs.map g) := by
  induction xs with
  | nil => rfl
  | cons x xs ih =>
    simp only [exMapM, List.map_cons]
    rw [h x (by simp), ih fun y hy => h y (by simp [hy])]
    rfl

theorem pyJoin_strs (sep : String) (xs : List Json) (h : ∀ x ∈ xs, ∃ s, x = Json.str s) :
    pyJoin sep xs = .ok (String.intercalate sep (xs.map pyStr)) := by
  have hm : exMapM asStr xs = .ok (xs.map pyStr) := by
    apply exMapM_eq_ok
    intro x hx
    obtain ⟨s, rfl⟩ := h x hx
    rfl
  unfold pyJoin
  rw [hm]
  rfl

theorem filter_truthy_strs (xs : List Json) (h : ∀ x ∈ xs, ∃ s, x = Json.str s) :
    (xs.filter pyTruthy).map pyStr = (xs.map pyStr).filter fun s => s ≠ "" := by
  induction xs with
  | nil => rfl
  | cons x xs ih =>
    obtain ⟨s, rfl⟩ := h x (by simp)
    have ih2 := ih fun y hy => h y (by simp [hy])
    by_cases hs : s = ""
    · subst hs
      simp [List.filter_cons, pyTruthy, pyStr, ih2]
    · simp [List.filter_cons, pyTruthy, pyStr, hs, ih2]

/-! # The validation characterisation used by claim C1 -/

/-- Lax numeric-string coercion at work, as pydantic v2 model_validate
does: a required integer id given as the string "5" validates, a float
amount given as "5.5" validates, and a non-numeric string fails. -/
theorem lax_numeric_string_examples :
    CleemyData.model_validate (Json.obj (jO
      [("profiles", Json.arr (jA [])),
       ("natures", Json.arr (jA [Json.obj (jO [("id", Json.str "5")])]))])) =
      .ok (CleemyData.mk [] [Nature.mk 5 []] []) ∧
    (Threshold.model_validate (Json.obj (jO [("amount", Json.str "5.5")]))).isOk = true ∧
    (Threshold.model_validate (Json.obj (jO [("amount", Json.str "abc")]))).isOk = false := by
  refine ⟨by decide, ?_, by decide⟩
  show ((optKey [("amount", Json.str "5.5")] "amount" vFloat).map Threshold.mk).isOk = true
  rw [isOk_map]
  rfl

/-- Claim C2, counterexample: the empty document parses, its
profile-nature table is empty, and find_orphan_nature_ids raises
(pandas KeyError: a DataFrame built from an empty record list has no
ID Nature column) instead of returning the empty set difference. -/
theorem claim_C2_counterexample :
    CleemyData.model_validate c2json = .ok (CleemyData.mk [] [] []) ∧
    _create_profile_nature_df (CleemyData.mk [] [] []) (natureLookup []) = [] ∧
    (find_orphan_nature_ids
      (_create_profile_nature_df (CleemyData.mk [] [] []) (natureLookup []))
      (natureLookup [])).isOk = false :=
  ⟨rfl, rfl, rfl⟩

/-- Claim C2 (amended): on every non-empty profile-nature table,
find_orphan_nature_ids never raises and returns exactly the set
difference between the nature ids of the table and the ids of the
lookup; on the empty table the column access raises KeyError. -/
theorem claim_C2_amended (df : List ProfileRow) (lookup : List (Int × Json)) (hne : df ≠ []) :
    ∃ s, find_orphan_nature_ids df lookup = .ok s ∧
      ∀ x : Int, x ∈ s ↔ ((∃ r ∈ df, r.idNature = x) ∧ ∀ kv ∈ lookup, kv.1 ≠ x) := by
  match df, hne with
  | r :: rest, _ =>
    refine ⟨_, rfl, ?_⟩
    intro x
    rw [Finset.mem_sdiff, List.mem_toFinset, List.mem_map,
      List.mem_toFinset, List.mem_map]
    constructor
    · rintro ⟨⟨rr, hrr, hid⟩, h2⟩
      refine ⟨⟨rr, hrr, hid⟩, ?_⟩
      intro kv hkv hks
      exact h2 ⟨kv, hkv, hks⟩
    · rintro ⟨⟨rr, hrr, hid⟩, hall⟩
      refine ⟨⟨rr, hrr, hid⟩, ?_⟩
      rintro ⟨kv, hkv, hks⟩
      exact hall kv hkv hks

/-- Claim C2, witness: a table granting the unknown nature 42 with an
empty lookup; the returned set holds exactly 42. -/
theorem claim_C2_witness :
    c2df ≠ [] ∧
      ∃ s, find_orphan_nature_ids c2df [] = .ok s ∧
        ∀ x : Int, x ∈ s ↔
          ((∃ r ∈ c2df, r.idNature = x) ∧ ∀ kv ∈ ([] : List (Int × Json)), kv.1 ≠ x) :=
  ⟨by decide, claim_C2_amended c2df [] (by decide)⟩

/-- Claim C4: parsing a limit without a type field succeeds (the field
defaults to None), but the flattener then evaluates
None.capitalize() - the getattr default "N/A" is dead code because the
pydantic attribute always exists - so the whole pipeline fails instead
of producing a row with CapKind "N/A".  The last two conjuncts check
the claim is otherwise right: a string kind is capitalized and an
Allowance row gets the literal "Forfait". -/
theorem claim_C4_bug :
    (CleemyData.model_validate c4json).isOk = true ∧
    (load_and_process_data c4json).isOk = false ∧
    (capitalizedLimitType none).isOk = false ∧
    capitalizedLimitType (some "absolute") = .ok "Absolute" ∧
    (allowanceRow [] (Profile.mk none [] [] [] []) (Allowance.mk [] none [])).map
        LimitRow.typePlafond = .ok "Forfait" :=
  ⟨rfl, rfl, rfl, rfl, rfl⟩

/-- Claim C5, counterexample: a nature whose fr-FR entry is present and
empty parses fine and resolves to the empty display name, because
dict.get with a default only falls back when the key is absent. -/
theorem claim_C5_counterexample :
    CleemyData.model_validate c5json = .ok (CleemyData.mk [] [c5nature] []) ∧
    Nature.name_fr c5nature = Json.str "" :=
  ⟨rfl, rfl⟩

/-- Claim C5 (amended): name_fr is the fr-FR entry whenever the key is
present (even null or empty), else the literal ID id; it is a
non-empty string whenever the fr-FR key is absent or holds a non-empty
string. -/
theorem claim_C5_amended (n : Nature)
    (h : ∀ v, getKey n.multilingualName "fr-FR" = some v → ∃ s, v = Json.str s ∧ s ≠ "") :
    ∃ s, Nature.name_fr n = Json.str s ∧ s ≠ "" := by
  unfold Nature.name_fr
  cases hg : getKey n.multilingualName "fr-FR" with
  | some v =>
    obtain ⟨s, rfl, hs⟩ := h v hg
    exact ⟨s, rfl, hs⟩
  | none =>
    refine ⟨"ID " ++ toString n.id, rfl, ?_⟩
    intro hcon
    have hl := congrArg String.length hcon
    rw [String.length_append] at hl
    have h2 : ("ID " : String).length = 3 := rfl
    have h3 : ("" : String).length = 0 := rfl
    rw [h2, h3] at hl
    omega

/-- Claim C5, witness: a nature with no localized name resolves to the
non-empty fallback. -/
theorem claim_C5_witness :
    ∃ s, Nature.name_fr (Nature.mk 7 []) = Json.str s ∧ s ≠ "" :=
  claim_C5_amended (Nature.mk 7 []) (fun _ hv => nomatch hv)

/-- Claim C9: the cache wrapping load_and_process_data hashes its
argument to a constant, so a run over the empty document behind a warm
cache returns the previously cached result of a different document,
while a cold run returns the freshly computed one: two runs on
byte-identical input disagree. -/
theorem claim_C9_bug :
    (load_and_process_data_cached (some (load_and_process_data c9inB)) c9inA).1 ≠
      (load_and_process_data_cached none c9inA).1 := by decide

theorem lookupGet_dictInsert (d : List (Int × Json)) (k : Int) (v : Json) (i : Int) :
    lookupGet (dictInsert d k v) i = if i = k then some v else lookupGet d i := by
  induction d with
  | nil =>
    by_cases h : i = k
    · simp [dictInsert, lookupGet, h]
    · have hk : ¬(k = i) := fun hc => h hc.symm
      simp [dictInsert, lookupGet, h, hk]
  | cons p rest ih =>
    simp only [dictInsert]
    by_cases hp : p.1 = k
    · rw [if_pos hp]
      by_cases hi : i = k
      · have hpi : p.1 = i := by rw [hp, hi]
        simp [lookupGet, hpi, hi]
      · have hpi : ¬(p.1 = i) := fun hc => hi (by rw [← hc]; exact hp)
        simp [lookupGet, hpi, hi]
    · rw [if_neg hp]
      by_cases hpi : p.1 = i
      · have hik : ¬(i = k) := fun hc => hp (by rw [hpi, hc])
        simp [lookupGet, hpi, hik]
      · simp [lookupGet, hpi, ih]

theorem natureLookup_foldl (ns : List Nature) (d : List (Int × Json)) (i : Int) :
    lookupGet (ns.foldl (fun acc n => dictInsert acc n.id n.name_fr) d) i =
      match lastNatureNamed ns i with
      | some v => some v
      | none => lookupGet d i := by
  induction ns generalizing d with
  | nil => rfl
  | cons n rest ih =>
    simp only [List.foldl_cons, lastNatureNamed]
    rw [ih]
    cases lastNatureNamed rest i with
    | some v => rfl
    | none =>
      rw [lookupGet_dictInsert]
      by_cases h : i = n.id
      · simp [h]
      · have hni : ¬(n.id = i) := fun hc => h hc.symm
        simp [h, hni]

/-- Claim C10: a duplicated nature id is accepted silently; the lookup
(and with it every lookup-based view) keeps the display name of the
last entry in document order.  The concrete document carries id 1 twice
(Repas then Restaurant): it validates, the lookup resolves 1 to
Restaurant, and the rule audit raises no warning about it. -/
theorem claim_C10_last_wins :
    (∀ (ns : List Nature) (i : Int), lookupGet (natureLookup ns) i = lastNatureNamed ns i) ∧
    CleemyData.model_validate c10json = .ok c10data ∧
    lookupGet (natureLookup c10data.natures) 1 = some (Json.str "Restaurant") ∧
    audit_inconsistent_rules c10data (natureLookup c10data.natures) = .ok [] := by
  refine ⟨?_, rfl, rfl, rfl⟩
  intro ns i
  show lookupGet (ns.foldl (fun acc n => dictInsert acc n.id n.name_fr) []) i = _
  rw [natureLookup_foldl ns [] i]
  cases lastNatureNamed ns i <;> rfl

theorem lookupGet_mem (d : List (Int × Json)) (k : Int) (v : Json)
    (h : lookupGet d k = some v) : ∃ kv ∈ d, kv.2 = v := by
  induction d with
  | nil => cases h
  | cons p rest ih =>
    by_cases hp : p.1 = k
    · simp [lookupGet, hp] at h
      exact ⟨p, by simp, h⟩
    · simp [lookupGet, hp] at h
      obtain ⟨kv, hkv, hv⟩ := ih h
      exact ⟨kv, by simp [hkv], hv⟩

theorem ruleNatureNames_strs (lookup : List (Int × Json)) (hs : strLookup lookup)
    (ids : List Int) : ∀ x ∈ ruleNatureNames lookup ids, ∃ s, x = Json.str s := by
  intro x hx
  simp only [ruleNatureNames, List.mem_map] at hx
  obtain ⟨nid, _, rfl⟩ := hx
  unfold lookupGetD
  cases hg : lookupGet lookup nid with
  | none => exact ⟨"ID " ++ toString nid, rfl⟩
  | some v =>
    obtain ⟨kv, hkv, rfl⟩ := lookupGet_mem lookup nid v hg
    obtain ⟨s, hsv⟩ := hs kv hkv
    exact ⟨s, by simp [hsv]⟩

/-- Claim C3, counterexample: a rule concerning the unknown nature 42
produces the cell "ID 42": the fallback name of an unknown id is joined
in, not filtered out (filter(None, ...) only removes falsy names), so
the claimed cell value (the empty join of known names) is wrong. -/
theorem claim_C3_counterexample :
    (_create_limits_df c3data []).map (fun rows => rows.map LimitRow.naturesConcernees) =
      .ok ["ID 42"] ∧
    claimC3Joined [] [42] = "" ∧ ("ID 42" : String) ≠ "" :=
  ⟨rfl, rfl, by decide⟩

/-- Claim C3 (amended): in every Limit row (when its kind is present,
otherwise the flattener raises before building the cell, see C4) and in
every Allowance row, ConcernedNatureNames comma-joins the looked-up
names with the fallback ID nid for unknown ids, filtering out the
falsy (empty) names; a rule with zero natures yields the empty string,
not an error.  The lookup values are assumed to be strings: a null or
other non-string localized name would make the join raise TypeError. -/
theorem claim_C3_amended (lookup : List (Int × Json)) (hs : strLookup lookup) :
    (∀ (p : Profile) (l : Limit), l.type.isSome = true →
      (limitRow lookup p l).map LimitRow.naturesConcernees =
        .ok (amendedConcerned lookup l.idNatures)) ∧
    (∀ (p : Profile) (a : Allowance),
      (allowanceRow lookup p a).map LimitRow.naturesConcernees =
        .ok (amendedConcerned lookup a.idNatures)) ∧
    amendedConcerned lookup [] = "" := by
  refine ⟨?_, ?_, rfl⟩
  · intro p l hl
    obtain ⟨t, ht⟩ := Option.isSome_iff_exists.mp hl
    have hnames := ruleNatureNames_strs lookup hs l.idNatures
    have hjoin : pyJoin ", " ((ruleNatureNames lookup l.idNatures).filter pyTruthy) =
        .ok (amendedConcerned lookup l.idNatures) := by
      rw [pyJoin_strs ", " _ fun x hx => hnames x (List.mem_of_mem_filter hx)]
      rw [filter_truthy_strs _ hnames]
      rfl
    unfold limitRow
    rw [hjoin, ht]
    rfl
  · intro p a
    have hnames := ruleNatureNames_strs lookup hs a.idNatures
    have hjoin : pyJoin ", " ((ruleNatureNames lookup a.idNatures).filter pyTruthy) =
        .ok (amendedConcerned lookup a.idNatures) := by
      rw [pyJoin_strs ", " _ fun x hx => hnames x (List.mem_of_mem_filter hx)]
      rw [filter_truthy_strs _ hnames]
      rfl
    unfold allowanceRow
    rw [hjoin]
    rfl

/-- Claim C3, witness: with a lookup naming 1 "Repas" and 2 "" the cell
for ids 1, 2, 3 keeps the known non-empty name, drops the empty one and
keeps the fallback for the unknown id 3. -/
theorem claim_C3_witness :
    (limitRow [(1, Json.str "Repas"), (2, Json.str "")] c3profile
        (Limit.mk [1, 2, 3] (some "absolute") none none [])).map LimitRow.naturesConcernees =
      .ok (amendedConcerned [(1, Json.str "Repas"), (2, Json.str "")] [1, 2, 3]) ∧
    amendedConcerned [(1, Json.str "Repas"), (2, Json.str "")] [1, 2, 3] = "Repas, ID 3" := by
  have hpf : strLookup [(1, Json.str "Repas"), (2, Json.str "")] := by
    intro kv hkv
    rcases List.mem_cons.mp hkv with rfl | hkv2
    · exact ⟨"Repas", rfl⟩
    · rcases List.mem_cons.mp hkv2 with rfl | h3
      · exact ⟨"", rfl⟩
      · cases h3
  exact ⟨(claim_C3_amended _ hpf).1 c3profile (Limit.mk [1, 2, 3] (some "absolute") none none [])
    rfl, rfl⟩

theorem limitWarningMsg_eq (lookup : List (Int × Json)) (hs : strLookup lookup)
    (p : Profile) (l : Limit) :
    limitWarningMsg lookup p l = .ok (limitWarningStr lookup p l) := by
  unfold limitWarningMsg limitWarningStr
  rw [pyJoin_strs ", " _ (ruleNatureNames_strs lookup hs l.idNatures)]
  rfl

theorem allowanceWarningMsg_eq (lookup : List (Int × Json)) (hs : strLookup lookup)
    (p : Profile) (a : Allowance) :
    allowanceWarningMsg lookup p a = .ok (allowanceWarningStr lookup p a) := by
  unfold allowanceWarningMsg allowanceWarningStr
  rw [pyJoin_strs ", " _ (ruleNatureNames_strs lookup hs a.idNatures)]
  rfl

theorem auditLimits_eq (lookup : List (Int × Json)) (hs : strLookup lookup)
    (p : Profile) (ls : List Limit) :
    auditLimits lookup p ls =
      .ok ((ls.filter fun l => degenerateAmount (ruleThreshold l.thresholds).amount).map
        (limitWarningStr lookup p)) := by
  induction ls with
  | nil => rfl
  | cons l rest ih =>
    simp only [auditLimits, List.filter_cons]
    by_cases hd : degenerateAmount (ruleThreshold l.thresholds).amount = true
    · rw [if_pos hd, if_pos hd, limitWarningMsg_eq lookup hs p l, ih]
      rfl
    · rw [if_neg hd, if_neg hd, ih]

theorem auditAllowances_eq (lookup : List (Int × Json)) (hs : strLookup lookup)
    (p : Profile) (aws : List Allowance) :
    auditAllowances lookup p aws =
      .ok ((aws.filter fun a => degenerateAmount (ruleThreshold a.thresholds).amount).map
        (allowanceWarningStr lookup p)) := by
  induction aws with
  | nil => rfl
  | cons a rest ih =>
    simp only [auditAllowances, List.filter_cons]
    by_cases hd : degenerateAmount (ruleThreshold a.thresholds).amount = true
    · rw [if_pos hd, if_pos hd, allowanceWarningMsg_eq lookup hs p a, ih]
      rfl
    · rw [if_neg hd, if_neg hd, ih]

/-- Claim C6 (amended): provided every lookup value is a string (a null
or non-string localized name instead makes the audit raise TypeError,
see the counterexample), audit_inconsistent_rules emits exactly one
warning per Limit or Allowance whose resolved amount is null or zero -
in document order, carrying the owning profile name, the rule kind and
the concerned nature names - and none for any other rule. -/
theorem claim_C6_amended (data : CleemyData) (lookup : List (Int × Json))
    (hs : strLookup lookup) :
    audit_inconsistent_rules data lookup = .ok (specDegenerateWarnings data lookup) := by
  suffices h : ∀ ps : List Profile, exMapM (fun p => do
      let lw ← auditLimits lookup p p.limits
      let aw ← auditAllowances lookup p p.allowances
      pure (lw ++ aw)) ps = .ok (ps.map fun p =>
        ((p.limits.filter fun l => degenerateAmount (ruleThreshold l.thresholds).amount).map
          (limitWarningStr lookup p)) ++
        ((p.allowances.filter fun a => degenerateAmount (ruleThreshold a.thresholds).amount).map
          (allowanceWarningStr lookup p))) by
    unfold audit_inconsistent_rules specDegenerateWarnings
    rw [h data.profiles]
    rfl
  intro ps
  apply exMapM_eq_ok
  intro p _
  rw [auditLimits_eq lookup hs p p.limits, auditAllowances_eq lookup hs p p.allowances]
  rfl

/-- Claim C6, counterexample: a degenerate limit (no thresholds) whose
concerned nature has a null localized name: the document validates, the
rule is degenerate, yet the audit raises TypeError on the name join
instead of emitting the warning. -/
theorem claim_C6_counterexample :
    CleemyData.model_validate c6json = .ok c6data ∧
    degenerateAmount (ruleThreshold c6limit.thresholds).amount = true ∧
    (audit_inconsistent_rules c6data (natureLookup c6data.natures)).isOk = false :=
  ⟨rfl, rfl, rfl⟩

/-- Claim C6, witness: limits with thresholds [], [amount 0] and
[amount 15]: exactly the first two are flagged. -/
theorem claim_C6_witness :
    audit_inconsistent_rules c6wData (natureLookup c6wData.natures) =
      .ok (specDegenerateWarnings c6wData (natureLookup c6wData.natures)) ∧
    (specDegenerateWarnings c6wData (natureLookup c6wData.natures)).length = 2 := by
  have hpf : strLookup (natureLookup c6wData.natures) := by
    intro kv hkv
    have hkv2 : kv ∈ [((1 : Int), Json.str "Repas")] := hkv
    obtain rfl := List.mem_singleton.mp hkv2
    exact ⟨"Repas", rfl⟩
  exact ⟨claim_C6_amended c6wData (natureLookup c6wData.natures) hpf, rfl⟩

/-- Claim C8, counterexample: chapter_body draws every column with the
same width, effective_page_width / num_columns; on a two-column table
whose content lengths are 1 and 10 the claimed proportional widths
differ from the equal widths the code computes (page width 210,
margin 10, the FPDF A4 portrait defaults in millimetres). -/
theorem claim_C8_counterexample :
    chapter_body_widths 210 10 c8df ≠ claimC8Widths 210 10 c8df := by
  intro hcon
  have h1 : chapter_body_widths 210 10 c8df =
      [(210 - 2 * 10) / ((2 : Nat) : Rat), (210 - 2 * 10) / ((2 : Nat) : Rat)] := rfl
  have h2 : claimC8Widths 210 10 c8df =
      [(210 - 2 * 10) * ((1 : Nat) : Rat) / ((11 : Nat) : Rat),
       (210 - 2 * 10) * ((10 : Nat) : Rat) / ((11 : Nat) : Rat)] := rfl
  rw [h1, h2] at hcon
  have hhead := congrArg (fun l : List Rat => l.headD 0) hcon
  simp only [List.headD_cons] at hhead
  norm_num at hhead

/-- Claim C8 (amended): for every table, each column width equals the
usable page width divided by the column count - independent of header
or cell content - and the widths sum to the usable page width. -/
theorem claim_C8_amended (w m : Rat) (df : Df) (h : df.headers.length ≠ 0) :
    (∀ x ∈ chapter_body_widths w m df, x = (w - 2 * m) / (df.headers.length : Rat)) ∧
    (chapter_body_widths w m df).sum = w - 2 * m := by
  constructor
  · intro x hx
    simp only [chapter_body_widths, List.mem_map] at hx
    obtain ⟨_, _, rfl⟩ := hx
    rfl
  · have hrep : chapter_body_widths w m df =
        List.replicate df.headers.length ((w - 2 * m) / (df.headers.length : Rat)) :=
      List.map_const' df.headers _
    rw [hrep, List.sum_replicate, nsmul_eq_mul]
    rw [mul_div_cancel₀]
    exact Nat.cast_ne_zero.mpr h

/-- Claim C8, witness: the two-column table at page width 210 and
margin 10. -/
theorem claim_C8_witness :
    (∀ x ∈ chapter_body_widths 210 10 c8df, x = (210 - 2 * 10) / (c8df.headers.length : Rat)) ∧
    (chapter_body_widths 210 10 c8df).sum = 210 - 2 * 10 :=
  claim_C8_amended 210 10 c8df (by decide)

theorem entryGet_updEntry (rs : PEntry) (name : Json) (f : PRules → PRules) (name' : Json) :
    entryGet (updEntry rs name f) name' =
      if name' = name then some (f ((entryGet rs name).getD (PRules.mk [] [])))
      else entryGet rs name' := by
  induction rs with
  | nil =>
    by_cases h : name' = name
    · simp [updEntry, entryGet, h]
    · have h2 : ¬(name = name') := fun hc => h hc.symm
      simp [updEntry, entryGet, h, h2]
  | cons e rest ih =>
    simp only [updEntry]
    by_cases he : e.1 = name
    · rw [if_pos he]
      by_cases h : name' = name
      · have he' : e.1 = name' := by rw [he, h]
        simp [entryGet, he', h, he]
      · have he' : ¬(e.1 = name') := fun hc => h (by rw [← hc, he])
        simp [entryGet, he', h]
    · rw [if_neg he]
      by_cases h : name' = name
      · have he' : ¬(e.1 = name') := fun hc => he (by rw [hc, h])
        subst h
        simp [entryGet, he', ih]
      · by_cases hee : e.1 = name'
        · simp [entryGet, hee, h]
        · simp [entryGet, hee, h, ih]

theorem mapGet_updMap (m : NMap) (nid : Int) (name : Json) (f : PRules → PRules) (nid' : Int) :
    mapGet (updMap m nid name f) nid' =
      if nid' = nid then some (updEntry ((mapGet m nid).getD []) name f)
      else mapGet m nid' := by
  induction m with
  | nil =>
    by_cases h : nid' = nid
    · simp [updMap, mapGet, h]
    · have h2 : ¬(nid = nid') := fun hc => h hc.symm
      simp [updMap, mapGet, h, h2]
  | cons e rest ih =>
    simp only [updMap]
    by_cases he : e.1 = nid
    · rw [if_pos he]
      by_cases h : nid' = nid
      · have he' : e.1 = nid' := by rw [he, h]
        simp [mapGet, he', h, he]
      · have he' : ¬(e.1 = nid') := fun hc => h (by rw [← hc, he])
        simp [mapGet, he', h]
    · rw [if_neg he]
      by_cases h : nid' = nid
      · have he' : ¬(e.1 = nid') := fun hc => he (by rw [hc, h])
        subst h
        simp [mapGet, he', ih]
      · by_cases hee : e.1 = nid'
        · simp [mapGet, hee, h]
        · simp [mapGet, hee, h, ih]

theorem lookup2_updMap (m : NMap) (nid : Int) (name : Json) (f : PRules → PRules)
    (nid' : Int) (name' : Json) :
    lookup2 (updMap m nid name f) nid' name' =
      if nid' = nid ∧ name' = name then
        some (f ((lookup2 m nid name).getD (PRules.mk [] [])))
      else lookup2 m nid' name' := by
  unfold lookup2
  rw [mapGet_updMap]
  by_cases h1 : nid' = nid
  · subst h1
    rw [if_pos rfl]
    show entryGet (updEntry ((mapGet m nid').getD []) name f) name' = _
    rw [entryGet_updEntry]
    by_cases h2 : name' = name
    · rw [if_pos h2, if_pos ⟨rfl, h2⟩]
      cases hm : mapGet m nid' with
      | none => simp [hm, entryGet]
      | some es => simp [hm]
    · rw [if_neg h2, if_neg fun hc => h2 hc.2]
      cases hm : mapGet m nid' with
      | none => simp [hm, entryGet]
      | some es => simp [hm]
  · rw [if_neg h1, if_neg fun hc => h1 hc.1]

theorem lookup2_grantFold (ids : List Int) (name : Json) (m : NMap)
    (nid' : Int) (name' : Json) :
    lookup2 (ids.foldl (fun acc nid => updMap acc nid name id) m) nid' name' =
      if name' = name ∧ nid' ∈ ids then
        some ((lookup2 m nid' name').getD (PRules.mk [] []))
      else lookup2 m nid' name' := by
  induction ids generalizing m with
  | nil => simp
  | cons a rest ih =>
    simp only [List.foldl_cons]
    rw [ih, lookup2_updMap]
    by_cases hn : name' = name
    · subst hn
      by_cases ha : nid' = a
      · subst ha
        by_cases hq : nid' ∈ rest <;> simp [hq, List.mem_cons]
      · by_cases hq : nid' ∈ rest <;> simp [ha, hq, List.mem_cons]
    · simp [hn]

theorem lookup2_updMap_untouched (m : NMap) (nid0 : Int) (name0 : Json) (f : PRules → PRules)
    (nid : Int) (name : Json) (h : ¬(nid = nid0 ∧ name = name0)) :
    lookup2 (updMap m nid0 name0 f) nid name = lookup2 m nid name := by
  rw [lookup2_updMap, if_neg h]

theorem lookup2_idsFold_untouched (ids : List Int) (name0 : Json) (f : PRules → PRules)
    (m : NMap) (nid : Int) (name : Json)
    (h : ∀ n0 ∈ ids, ¬(nid = n0 ∧ name = name0)) :
    lookup2 (ids.foldl (fun acc n0 => updMap acc n0 name0 f) m) nid name =
      lookup2 m nid name := by
  induction ids generalizing m with
  | nil => rfl
  | cons a rest ih =>
    simp only [List.foldl_cons]
    rw [ih (updMap m a name0 f) fun n0 hn0 => h n0 (List.mem_cons_of_mem a hn0)]
    exact lookup2_updMap_untouched m a name0 f nid name (h a (List.mem_cons_self a rest))

theorem lookup2_rulesFold_untouched {β : Type} (getIds : β → List Int)
    (mkF : β → PRules → PRules) (rules : List β) (name0 : Json)
    (m : NMap) (nid : Int) (name : Json)
    (h : ∀ b ∈ rules, ∀ n0 ∈ getIds b, ¬(nid = n0 ∧ name = name0)) :
    lookup2 (rules.foldl (fun acc b =>
        (getIds b).foldl (fun acc2 n0 => updMap acc2 n0 name0 (mkF b)) acc) m) nid name =
      lookup2 m nid name := by
  induction rules generalizing m with
  | nil => rfl
  | cons c rest ih =>
    simp only [List.foldl_cons]
    rw [ih _ fun b hb => h b (List.mem_cons_of_mem c hb)]
    exact lookup2_idsFold_untouched (getIds c) name0 (mkF c) m nid name
      (h c (List.mem_cons_self c rest))

theorem lookup2_updMap_mono {α : Type} (proj : PRules → List α) (m : NMap) (nid0 : Int)
    (name0 : Json) (f : PRules → PRules) (hf : ∀ r, proj r ⊆ proj (f r))
    (nid : Int) (name : Json) (x : α) (r : PRules)
    (hr : lookup2 m nid name = some r) (hx : x ∈ proj r) :
    ∃ r2, lookup2 (updMap m nid0 name0 f) nid name = some r2 ∧ x ∈ proj r2 := by
  rw [lookup2_updMap]
  by_cases hc : nid = nid0 ∧ name = name0
  · rw [if_pos hc]
    obtain ⟨h1, h2⟩ := hc
    rw [← h1, ← h2, hr]
    exact ⟨_, rfl, hf r hx⟩
  · rw [if_neg hc, hr]
    exact ⟨r, rfl, hx⟩

theorem lookup2_idsFold_mono {α : Type} (proj : PRules → List α) (ids : List Int)
    (name0 : Json) (f : PRules → PRules) (hf : ∀ r, proj r ⊆ proj (f r))
    (m : NMap) (nid : Int) (name : Json) (x : α) (r : PRules)
    (hr : lookup2 m nid name = some r) (hx : x ∈ proj r) :
    ∃ r2, lookup2 (ids.foldl (fun acc n0 => updMap acc n0 name0 f) m) nid name = some r2 ∧
      x ∈ proj r2 := by
  induction ids generalizing m r with
  | nil => exact ⟨r, hr, hx⟩
  | cons a rest ih =>
    simp only [List.foldl_cons]
    obtain ⟨r1, hr1, hx1⟩ := lookup2_updMap_mono proj m a name0 f hf nid name x r hr hx
    exact ih (updMap m a name0 f) r1 hr1 hx1

theorem lookup2_rulesFold_mono {α β : Type} (proj : PRules → List α) (getIds : β → List Int)
    (mkF : β → PRules → PRules) (hf : ∀ (b : β) r, proj r ⊆ proj (mkF b r))
    (rules : List β) (name0 : Json) (m : NMap) (nid : Int) (name : Json) (x : α) (r : PRules)
    (hr : lookup2 m nid name = some r) (hx : x ∈ proj r) :
    ∃ r2, lookup2 (rules.foldl (fun acc b =>
        (getIds b).foldl (fun acc2 n0 => updMap acc2 n0 name0 (mkF b)) acc) m) nid name =
      some r2 ∧ x ∈ proj r2 := by
  induction rules generalizing m r with
  | nil => exact ⟨r, hr, hx⟩
  | cons c rest ih =>
    simp only [List.foldl_cons]
    obtain ⟨r1, hr1, hx1⟩ :=
      lookup2_idsFold_mono proj (getIds c) name0 (mkF c) (hf c) m nid name x r hr hx
    exact ih _ r1 hr1 hx1

theorem lookup2_idsFold_establish {α : Type} (proj : PRules → List α) (ids : List Int)
    (name0 : Json) (f : PRules → PRules) (x : α)
    (hfx : ∀ r, x ∈ proj (f r)) (hf : ∀ r, proj r ⊆ proj (f r))
    (m : NMap) (nid : Int) (hnid : nid ∈ ids) :
    ∃ r2, lookup2 (ids.foldl (fun acc n0 => updMap acc n0 name0 f) m) nid name0 = some r2 ∧
      x ∈ proj r2 := by
  induction ids generalizing m with
  | nil => cases hnid
  | cons a rest ih =>
    simp only [List.foldl_cons]
    rcases List.mem_cons.mp hnid with rfl | hmem
    · have h1 : ∃ r1, lookup2 (updMap m nid name0 f) nid name0 = some r1 ∧ x ∈ proj r1 := by
        rw [lookup2_updMap, if_pos ⟨rfl, rfl⟩]
        exact ⟨_, rfl, hfx _⟩
      obtain ⟨r1, hr1, hx1⟩ := h1
      exact lookup2_idsFold_mono proj rest name0 f hf _ nid name0 x r1 hr1 hx1
    · exact ih (updMap m a name0 f) hmem

theorem lookup2_rulesFold_establish {α β : Type} (proj : PRules → List α)
    (getIds : β → List Int) (mkF : β → PRules → PRules)
    (hf : ∀ (b : β) r, proj r ⊆ proj (mkF b r))
    (rules : List β) (name0 : Json) (b : β) (hb : b ∈ rules) (x : α)
    (hfx : ∀ r, x ∈ proj (mkF b r)) (nid : Int) (hnid : nid ∈ getIds b) (m : NMap) :
    ∃ r2, lookup2 (rules.foldl (fun acc b2 =>
        (getIds b2).foldl (fun acc2 n0 => updMap acc2 n0 name0 (mkF b2)) acc) m) nid name0 =
      some r2 ∧ x ∈ proj r2 := by
  induction rules generalizing m with
  | nil => cases hb
  | cons c rest ih =>
    simp only [List.foldl_cons]
    rcases List.mem_cons.mp hb with rfl | hmem
    · obtain ⟨r1, hr1, hx1⟩ :=
        lookup2_idsFold_establish proj (getIds b) name0 (mkF b) x hfx (hf b) m nid hnid
      exact lookup2_rulesFold_mono proj getIds mkF hf rest name0 _ nid name0 x r1 hr1 hx1
    · exact ih hmem _

theorem lookup2_addProfile_ne (m : NMap) (p : Profile) (nid : Int) (name : Json)
    (h : name ≠ p.name_fr) :
    lookup2 (addProfile m p) nid name = lookup2 m nid name := by
  have h3 := lookup2_idsFold_untouched p.idNatures p.name_fr id m nid name
    fun n0 _ hc => h hc.2
  have h2 := lookup2_rulesFold_untouched (fun l : Limit => l.idNatures)
    (fun l r => PRules.mk (r.limits ++ [l]) r.allowances) p.limits p.name_fr
    (p.idNatures.foldl (fun acc nid2 => updMap acc nid2 p.name_fr id) m) nid name
    fun b _ n0 _ hc => h hc.2
  have h1 := lookup2_rulesFold_untouched (fun a : Allowance => a.idNatures)
    (fun a r => PRules.mk r.limits (r.allowances ++ [a])) p.allowances p.name_fr
    (p.limits.foldl (fun acc l => l.idNatures.foldl (fun acc2 nid2 => updMap acc2 nid2 p.name_fr
        fun r => PRules.mk (r.limits ++ [l]) r.allowances) acc)
      (p.idNatures.foldl (fun acc nid2 => updMap acc nid2 p.name_fr id) m)) nid name
    fun b _ n0 _ hc => h hc.2
  exact h1.trans (h2.trans h3)

theorem lookup2_addProfile_granted_norules (m : NMap) (p : Profile) (nid : Int)
    (hg : nid ∈ p.idNatures)
    (hl : ∀ l ∈ p.limits, nid ∉ l.idNatures)
    (ha : ∀ a ∈ p.allowances, nid ∉ a.idNatures)
    (hbase : lookup2 m nid p.name_fr = none) :
    lookup2 (addProfile m p) nid p.name_fr = some (PRules.mk [] []) := by
  have h3 : lookup2 (p.idNatures.foldl (fun acc nid2 => updMap acc nid2 p.name_fr id) m) nid
      p.name_fr = some (PRules.mk [] []) := by
    rw [lookup2_grantFold, if_pos ⟨rfl, hg⟩, hbase]
    rfl
  have h2 := lookup2_rulesFold_untouched (fun l : Limit => l.idNatures)
    (fun l r => PRules.mk (r.limits ++ [l]) r.allowances) p.limits p.name_fr
    (p.idNatures.foldl (fun acc nid2 => updMap acc nid2 p.name_fr id) m) nid p.name_fr
    fun b hb n0 hn0 hc => hl b hb (by rw [hc.1]; exact hn0)
  have h1 := lookup2_rulesFold_untouched (fun a : Allowance => a.idNatures)
    (fun a r => PRules.mk r.limits (r.allowances ++ [a])) p.allowances p.name_fr
    (p.limits.foldl (fun acc l => l.idNatures.foldl (fun acc2 nid2 => updMap acc2 nid2 p.name_fr
        fun r => PRules.mk (r.limits ++ [l]) r.allowances) acc)
      (p.idNatures.foldl (fun acc nid2 => updMap acc nid2 p.name_fr id) m)) nid p.name_fr
    fun b hb n0 hn0 hc => ha b hb (by rw [hc.1]; exact hn0)
  exact h1.trans (h2.trans h3)

theorem lookup2_addProfile_limit_mem (m : NMap) (p : Profile) (nid : Int) (l : Limit)
    (hlmem : l ∈ p.limits) (hnid : nid ∈ l.idNatures) :
    ∃ r, lookup2 (addProfile m p) nid p.name_fr = some r ∧ l ∈ r.limits := by
  obtain ⟨r1, hr1, hx1⟩ := lookup2_rulesFold_establish (fun r => r.limits)
    (fun l2 : Limit => l2.idNatures) (fun l2 r => PRules.mk (r.limits ++ [l2]) r.allowances)
    (fun b r => List.subset_append_left r.limits [b])
    p.limits p.name_fr l hlmem l
    (fun r => List.mem_append_right r.limits (List.mem_singleton_self l))
    nid hnid (p.idNatures.foldl (fun acc nid2 => updMap acc nid2 p.name_fr id) m)
  have h1 := lookup2_rulesFold_mono (fun r => r.limits) (fun a : Allowance => a.idNatures)
    (fun a r => PRules.mk r.limits (r.allowances ++ [a]))
    (fun b r y hy => hy)
    p.allowances p.name_fr
    (p.limits.foldl (fun acc l2 => l2.idNatures.foldl (fun acc2 nid2 =>
        updMap acc2 nid2 p.name_fr
        fun r => PRules.mk (r.limits ++ [l2]) r.allowances) acc)
      (p.idNatures.foldl (fun acc nid2 => updMap acc nid2 p.name_fr id) m))
    nid p.name_fr l r1 hr1 hx1
  exact h1

theorem lookup2_addProfile_allowance_mem (m : NMap) (p : Profile) (nid : Int) (a : Allowance)
    (hamem : a ∈ p.allowances) (hnid : nid ∈ a.idNatures) :
    ∃ r, lookup2 (addProfile m p) nid p.name_fr = some r ∧ a ∈ r.allowances := by
  have h1 := lookup2_rulesFold_establish (fun r => r.allowances)
    (fun a2 : Allowance => a2.idNatures) (fun a2 r => PRules.mk r.limits (r.allowances ++ [a2]))
    (fun b r => List.subset_append_left r.allowances [b])
    p.allowances p.name_fr a hamem a
    (fun r => List.mem_append_right r.allowances (List.mem_singleton_self a))
    nid hnid
    (p.limits.foldl (fun acc l2 => l2.idNatures.foldl (fun acc2 nid2 =>
        updMap acc2 nid2 p.name_fr
        fun r => PRules.mk (r.limits ++ [l2]) r.allowances) acc)
      (p.idNatures.foldl (fun acc nid2 => updMap acc nid2 p.name_fr id) m))
  exact h1

theorem lookup2_profilesFold_ne (ps : List Profile) (m : NMap) (nid : Int) (name : Json)
    (h : ∀ q ∈ ps, name ≠ q.name_fr) :
    lookup2 (ps.foldl addProfile m) nid name = lookup2 m nid name := by
  induction ps generalizing m with
  | nil => rfl
  | cons q rest ih =>
    simp only [List.foldl_cons]
    rw [ih (addProfile m q) fun q2 hq2 => h q2 (List.mem_cons_of_mem q hq2)]
    exact lookup2_addProfile_ne m q nid name (h q (List.mem_cons_self q rest))

/-- Claim C7 (amended): the reverse index is keyed by profile display
name, so the claim holds per profile provided display names are
pairwise distinct strings (the counterexample shows two same-named
profiles sharing one entry): if P grants N and none of its rules
references N, the entry at (N, name of P) exists and is exactly
empty limits and allowances - distinguishable from no entry at all -
and every limit/allowance of P referencing N is a member of the
corresponding list of that entry. -/
theorem claim_C7_amended (data : CleemyData) (p : Profile) (nid : Int)
    (hp : p ∈ data.profiles)
    (hnodup : (data.profiles.map Profile.name_fr).Nodup)
    (hstr : ∀ q ∈ data.profiles, ∃ s, Profile.name_fr q = Json.str s) :
    (nid ∈ p.idNatures → (∀ l ∈ p.limits, nid ∉ l.idNatures) →
      (∀ a ∈ p.allowances, nid ∉ a.idNatures) →
      lookup2 (_create_nature_to_profiles_map data) nid p.name_fr = some (PRules.mk [] [])) ∧
    (∀ l ∈ p.limits, nid ∈ l.idNatures →
      ∃ r, lookup2 (_create_nature_to_profiles_map data) nid p.name_fr = some r ∧
        l ∈ r.limits) ∧
    (∀ a ∈ p.allowances, nid ∈ a.idNatures →
      ∃ r, lookup2 (_create_nature_to_profiles_map data) nid p.name_fr = some r ∧
        a ∈ r.allowances) := by
  obtain ⟨pre, post, hsplit⟩ := List.append_of_mem hp
  have hmapn : data.profiles.map Profile.name_fr =
      pre.map Profile.name_fr ++ p.name_fr :: post.map Profile.name_fr := by
    rw [hsplit]
    simp
  rw [hmapn, List.nodup_append] at hnodup
  have hnotpre : ∀ q ∈ pre, p.name_fr ≠ q.name_fr := by
    intro q hq hc
    exact hnodup.2.2 (by rw [hc]; exact List.mem_map_of_mem Profile.name_fr hq)
      (List.mem_cons_self _ _)
  have hnotpost : ∀ q ∈ post, p.name_fr ≠ q.name_fr := by
    intro q hq hc
    exact (List.nodup_cons.mp hnodup.2.1).1 (by rw [hc]; exact List.mem_map_of_mem _ hq)
  have hm : _create_nature_to_profiles_map data =
      post.foldl addProfile (addProfile (pre.foldl addProfile []) p) := by
    unfold _create_nature_to_profiles_map
    rw [hsplit, List.foldl_append, List.foldl_cons]
  have hbase : lookup2 (pre.foldl addProfile []) nid p.name_fr = none := by
    rw [lookup2_profilesFold_ne pre [] nid p.name_fr hnotpre]
    rfl
  have hpost : ∀ v, lookup2 (addProfile (pre.foldl addProfile []) p) nid p.name_fr = v →
      lookup2 (_create_nature_to_profiles_map data) nid p.name_fr = v := by
    intro v hv
    rw [hm, lookup2_profilesFold_ne post _ nid p.name_fr hnotpost]
    exact hv
  refine ⟨?_, ?_, ?_⟩
  · intro hg hl ha
    exact hpost _ (lookup2_addProfile_granted_norules (pre.foldl addProfile []) p nid hg hl ha
      hbase)
  · intro l hlmem hnid
    obtain ⟨r, hr, hx⟩ :=
      lookup2_addProfile_limit_mem (pre.foldl addProfile []) p nid l hlmem hnid
    exact ⟨r, hpost _ hr, hx⟩
  · intro a hamem hnid
    obtain ⟨r, hr, hx⟩ :=
      lookup2_addProfile_allowance_mem (pre.foldl addProfile []) p nid a hamem hnid
    exact ⟨r, hpost _ hr, hx⟩

/-- Claim C7, counterexample: two profiles share the display name
"Profil non identifié"; the first grants nature 1 and has no rule, yet
the reverse-index entry for nature 1 under that name carries the second
limit of the second profile, not the claimed empty lists. -/
theorem claim_C7_counterexample :
    Profile.name_fr c7p0 = Json.str "Profil non identifié" ∧
    Profile.name_fr c7p1 = Json.str "Profil non identifié" ∧
    (1 : Int) ∈ c7p0.idNatures ∧ c7p0.limits = [] ∧ c7p0.allowances = [] ∧
    lookup2 (_create_nature_to_profiles_map c7data) 1 (Profile.name_fr c7p0) =
      some (PRules.mk [c7limit] []) ∧
    some (PRules.mk [c7limit] []) ≠ some (PRules.mk [] []) :=
  ⟨rfl, rfl, by decide, rfl, rfl, rfl, by decide⟩

/-- Claim C7, witness: with distinct string names, profile A grants
nature 5 without any rule and its entry is exactly the empty pair. -/
theorem claim_C7_witness :
    lookup2 (_create_nature_to_profiles_map c7wData) 5 (Profile.name_fr c7wpA) =
      some (PRules.mk [] []) := by
  have h1 : c7wpA ∈ c7wData.profiles := by decide
  have h2 : (c7wData.profiles.map Profile.name_fr).Nodup := by decide
  have h3 : ∀ q ∈ c7wData.profiles, ∃ s, Profile.name_fr q = Json.str s := by
    intro q hq
    rcases List.mem_cons.mp hq with rfl | hq2
    · exact ⟨"A", rfl⟩
    · rcases List.mem_cons.mp hq2 with rfl | hq3
      · exact ⟨"B", rfl⟩
      · cases hq3
  exact (claim_C7_amended c7wData c7wpA 5 h1 h2 h3).1 (by decide)
    (fun l hl => nomatch hl) (fun a ha => nomatch ha)
